import Mathlib

/-!
Verification of the BTC_XGBOOST trading system core against its specification.

Shallow embedding of:
* `src/src/tracker.py`    — `TradeTracker` (SQLite trade ledger)
* `src/src/aggregator.py` — `CandleAggregator` (multi-timeframe bar aggregation)
* `src/src/ingestion.py`  — `BinanceIngestor._on_message` (stream handling)
* `src/src/auditor.py`    — `TradeAuditor.resolve_expired_trades`
* `src/eel_app.py`        — `strategy_worker` (entry / stop-loss / take-profit)
* `src/Model_XGBoost/dataset.py` — `DatasetBuilder.build_mtf_dataset` (asof join)

Prices, probabilities and volumes are modelled as rationals; timestamps as
natural numbers (milliseconds).  SQLite tables are modelled as lists of rows,
with the primary-key constraint made explicit where the code relies on it.
-/

/-! ## Trade ledger (`src/src/tracker.py`) -/

/-- A row of the `forward_trades` table.  `id` is the PRIMARY KEY. -/
structure TradeRow where
  id : String
  market_slug : String
  question : String
  end_date : String
  prediction_side : String
  prediction_prob : ℚ
  entry_time : String
  status : String
  result_side : Option String
  pnl : Option ℚ
  entry_price : Option ℚ
  profit_target : Option ℚ
deriving Repr, DecidableEq

/-- The `forward_trades` table: a list of rows (insertion order). -/
abbrev TradeDB := List TradeRow

/-- `TradeTracker.log_trade`: attempts `INSERT INTO forward_trades ...`.
The PRIMARY KEY on `id` makes the insert fail with an `IntegrityError` when a
row with the same id exists; the code catches it and returns without raising.
Returns the updated table and whether the row was inserted. -/
def log_trade (db : TradeDB) (r : TradeRow) : TradeDB × Bool :=
  if db.any (fun x => x.id == r.id) then (db, false) else (db ++ [r], true)

/-- Effect of `TradeTracker.update_result` on a single row:
`UPDATE forward_trades SET status='CLOSED', result_side=?, pnl=? WHERE id=?`.
There is no `status` condition in the WHERE clause. -/
def update_row (market_id result_side : String) (p : ℚ) (r : TradeRow) : TradeRow :=
  if r.id = market_id then
    { r with status := "CLOSED", result_side := some result_side, pnl := some p }
  else r

/-- `TradeTracker.update_result` applied to the whole table. -/
def update_result (db : TradeDB) (market_id result_side : String) (p : ℚ) : TradeDB :=
  db.map (update_row market_id result_side p)

/-- Effect of `TradeTracker.close_trade` on a single row:
`UPDATE forward_trades SET status='CLOSED', pnl=?, result_side=? WHERE id=?`.
There is no `status` condition in the WHERE clause. -/
def close_row (market_id : String) (p : ℚ) (reason : String) (r : TradeRow) : TradeRow :=
  if r.id = market_id then
    { r with status := "CLOSED", pnl := some p, result_side := some reason }
  else r

/-- `TradeTracker.close_trade` applied to the whole table. -/
def close_trade (db : TradeDB) (market_id : String) (p : ℚ) (reason : String) : TradeDB :=
  db.map (close_row market_id p reason)

/-- A concrete already-CLOSED trade with pnl 5. -/
def closedRow : TradeRow :=
  { id := "t1", market_slug := "s", question := "q", end_date := "e",
    prediction_side := "UP", prediction_prob := 7/10, entry_time := "x",
    status := "CLOSED", result_side := some "Yes", pnl := some 5,
    entry_price := some (6/10), profit_target := some (66/100) }

/-- A concrete table holding one already-CLOSED trade. -/
def closedDB : TradeDB := [closedRow]

/-! ## Aggregator (`src/src/aggregator.py`) -/

/-- A 1m candle / an in-memory aggregation bucket.  The dict key `open` is a
Lean keyword, hence the field name `open_price` (the local variable name used
in `process_1m_candle`). -/
structure Candle where
  timestamp : ℕ
  open_price : ℚ
  high : ℚ
  low : ℚ
  close : ℚ
  volume : ℚ
deriving Repr, DecidableEq

/-- `bucket_start = (current_ts // interval_ms) * interval_ms` with
`interval_ms = timeframe_minutes * 60 * 1000`. -/
def bucketStart (timeframe_minutes : ℕ) (ts : ℕ) : ℕ :=
  let interval_ms := timeframe_minutes * 60 * 1000
  (ts / interval_ms) * interval_ms

/-- `CandleAggregator._create_new_bucket`. -/
def create_new_bucket (start_ts : ℕ) (candle : Candle) : Candle :=
  { timestamp := start_ts, open_price := candle.open_price, high := candle.high,
    low := candle.low, close := candle.close, volume := candle.volume }

/-- The same-bucket update of `_update_timeframe_buffer` (lines 59-70):
open unchanged, high = max, low = min, close = incoming close,
volume accumulated. -/
def mergeCandle (bs : ℕ) (last_candle candle_1m : Candle) : Candle :=
  { timestamp := bs, open_price := last_candle.open_price,
    high := max last_candle.high candle_1m.high,
    low := min last_candle.low candle_1m.low,
    close := candle_1m.close,
    volume := last_candle.volume + candle_1m.volume }

/-- `CandleAggregator._update_timeframe_buffer` for one timeframe.
State is the buffer entry `self.buffer[timeframe_minutes]` (`none` before the
first bar).  Returns the new buffer, the list of candles flushed to the
database by `self.db.insert_candle` during this call, and the returned
(possibly still-open) bucket snapshot. -/
def update_timeframe_buffer (timeframe_minutes : ℕ) (buf : Option (ℕ × Candle))
    (candle_1m : Candle) : Option (ℕ × Candle) × List Candle × Candle :=
  let bs := bucketStart timeframe_minutes candle_1m.timestamp
  match buf with
  | some (last_bucket_start, last_candle) =>
    if bs = last_bucket_start then
      let nc := mergeCandle bs last_candle candle_1m
      (some (bs, nc), [], nc)
    else
      let nc := create_new_bucket bs candle_1m
      (some (bs, nc), [last_candle], nc)
  | none =>
    let nc := create_new_bucket bs candle_1m
    (some (bs, nc), [], nc)

/-- Feeding a sequence of base bars through `_update_timeframe_buffer` for one
timeframe, collecting in order every candle persisted to the bar store. -/
def runAgg (timeframe_minutes : ℕ) (buf : Option (ℕ × Candle)) :
    List Candle → Option (ℕ × Candle) × List Candle
  | [] => (buf, [])
  | c :: rest =>
    let step := update_timeframe_buffer timeframe_minutes buf c
    let tail := runAgg timeframe_minutes step.1 rest
    (tail.1, step.2.1 ++ tail.2)

/-! ## Strategy loop (`src/eel_app.py`, `strategy_worker`) -/

/-- Trade side as stored in `prediction_side`. -/
inductive Side | UP | DOWN
deriving Repr, DecidableEq

/-- An entry signal produced by the entry logic of `strategy_worker`
(lines 400-450): side, raw model probability, the quoted price for that side
and the signed edge. -/
structure EntrySignal where
  signal_side : Side
  confidence : ℚ
  market_price : ℚ
  edge_val : ℚ
deriving Repr, DecidableEq

/-- Entry decision of `strategy_worker` when no open trade exists for the
active contract (state NONE): UP requires `avg_prob > 0.65` and
`avg_prob - price_up > 0.05`; DOWN requires `avg_prob < 0.35` and
`(1 - avg_prob) - price_down > 0.05`. -/
def entry_signal (avg_prob price_up price_down : ℚ) : Option EntrySignal :=
  if avg_prob > 65/100 then
    let edge := avg_prob - price_up
    if edge > 5/100 then some ⟨Side.UP, avg_prob, price_up, edge⟩ else none
  else if avg_prob < 35/100 then
    let prob_down := 1 - avg_prob
    let edge := prob_down - price_down
    if edge > 5/100 then some ⟨Side.DOWN, avg_prob, price_down, edge⟩ else none
  else none

/-- `target = market_price + (edge_val/2)` (eel_app.py line 450). -/
def profit_target_of (s : EntrySignal) : ℚ := s.market_price + s.edge_val / 2

/-- The fields of an open trade that the exit logic reads. -/
structure ManagedTrade where
  side : Side
  entry_price : ℚ
  tp_price : Option ℚ
deriving Repr, DecidableEq

/-- Exit decision of `strategy_worker` for one open trade on one evaluation
(lines 358-398).  Returns `some (reason, pnl)` when the trade is closed this
tick, `none` otherwise.  The stop-loss check comes first; a triggered
stop-loss `continue`s past the take-profit check.  `tp_price` is tested for
Python truthiness (`if tp_price and ...`), so a missing or zero target never
fires a take-profit. -/
def manage_open_trade (avg_prob price_up price_down : ℚ) (t : ManagedTrade) :
    Option (String × ℚ) :=
  let current_price := if t.side = Side.UP then price_up else price_down
  let sl_triggered :=
    (t.side = Side.UP ∧ avg_prob < 65/100) ∨
    (t.side = Side.DOWN ∧ avg_prob > 35/100)
  if sl_triggered then
    some ("SL_ODDS_DROP", current_price - t.entry_price)
  else
    match t.tp_price with
    | some tp =>
      if tp ≠ 0 ∧ current_price ≥ tp then some ("TP_HIT", current_price - t.entry_price)
      else none
    | none => none

/-! ## Multi-timeframe join (`src/Model_XGBoost/dataset.py`) -/

/-- Backward as-of lookup: the greatest key `≤ t`, mirroring
`pd.merge_asof(..., direction='backward')` on a sorted key column. -/
def asofBackward : List ℕ → ℕ → Option ℕ
  | [], _ => none
  | k :: ks, t =>
    match asofBackward ks t with
    | none => if k ≤ t then some k else none
    | some m => if k ≤ t then some (max k m) else some m

/-- The cadence-`c` lookup of `build_mtf_dataset` (lines 194-210): every
cadence bar's start key is shifted forward by the cadence duration
(`shifted_tf.index = shifted_tf.index + pd.Timedelta(minutes=tf_min)`), then a
backward as-of match is taken against the base timestamp.  Returns the shifted
key of the matched bar. -/
def joinTF (c_ms : ℕ) (tfStarts : List ℕ) (t : ℕ) : Option ℕ :=
  asofBackward (tfStarts.map (· + c_ms)) t

/-- The merged dataset restricted to one higher cadence: one `(t, start)` pair
per base timestamp that found a match, where `start` is the matched cadence
bucket's start time.  Base rows whose lookup misses get a NaN from
`merge_asof` and are removed by the final `dropna()` (line 213), modelled by
`filterMap`. -/
def build_mtf (c_ms : ℕ) (base tfStarts : List ℕ) : List (ℕ × ℕ) :=
  base.filterMap (fun t => (joinTF c_ms tfStarts t).map (fun k => (t, k - c_ms)))

/-! ## Settlement auditor (`src/src/auditor.py`, `resolve_expired_trades`) -/

/-- Resolution step for one expired OPEN trade (lines 84-108).  `resolution`
is the outcome reported by the external source (`none` while the market is not
yet resolved).  Returns `some (result_side, pnl)` exactly when the trade is
closed via `update_result`; `none` leaves the trade OPEN. -/
def resolve_trade (side : String) (prob : ℚ) (entry_price : Option ℚ)
    (resolution : Option String) : Option (String × ℚ) :=
  match resolution with
  | none => none
  | some res =>
    let won := (res = "Yes" ∧ side = "UP") ∨ (res = "No" ∧ side = "DOWN")
    let cost :=
      match entry_price with
      | some ep => if ep > 0 then ep else if side = "UP" then prob else 1 - prob
      | none => if side = "UP" then prob else 1 - prob
    let payout : ℚ := if won then 1 else 0
    some (res, payout - cost)

/-! ## Stream ingestion (`src/src/ingestion.py`, `BinanceIngestor._on_message`) -/

/-- A kline websocket event: venue symbol, kline interval, the `x` flag
(candle closed) and the candle payload. -/
structure KlineMsg where
  symbol : String
  interval : String
  is_closed : Bool
  candle : Candle
deriving Repr, DecidableEq

/-- `_on_message` for a kline event (lines 46-60): when the symbol is present
and the interval is `1m`, the 1m candle is persisted only if the event is
flagged closed, while the aggregator is invoked on every event.  Returns
(the 1m candles persisted, the candles handed to the aggregator). -/
def on_message (msg : KlineMsg) : List Candle × List Candle :=
  if msg.symbol ≠ "" ∧ msg.interval = "1m" then
    ((if msg.is_closed then [msg.candle] else []), [msg.candle])
  else ([], [])

/-! ## Derived predicates mirroring locals of the source -/

/-- The local `current_price = price_up if side == "UP" else price_down`
(eel_app.py line 376). -/
def current_price_for (price_up price_down : ℚ) (t : ManagedTrade) : ℚ :=
  if t.side = Side.UP then price_up else price_down

/-- The local `sl_triggered` (eel_app.py lines 380-384). -/
def sl_condition (avg_prob : ℚ) (t : ManagedTrade) : Prop :=
  (t.side = Side.UP ∧ avg_prob < 65/100) ∨ (t.side = Side.DOWN ∧ avg_prob > 35/100)

instance (p : ℚ) (t : ManagedTrade) : Decidable (sl_condition p t) := by
  unfold sl_condition; exact inferInstance

/-- OHLC sanity of a bar: the high bounds open and close from above, the low
from below. -/
def candle_ok (c : Candle) : Prop :=
  max c.open_price c.close ≤ c.high ∧ c.low ≤ min c.open_price c.close

instance (c : Candle) : Decidable (candle_ok c) := by
  unfold candle_ok; exact inferInstance

/-! ## Concrete fixtures for scenarios and counterexamples -/

/-- Base bar at 12:00 (ms of day 43200000) with all prices 100, volume 10. -/
def bar1200 : Candle :=
  { timestamp := 43200000, open_price := 100, high := 100, low := 100,
    close := 100, volume := 10 }

/-- Base bar at 12:01 with all prices 101, volume 20. -/
def bar1201 : Candle :=
  { timestamp := 43260000, open_price := 101, high := 101, low := 101,
    close := 101, volume := 20 }

/-- Base bar at 12:02 with all prices 99, volume 30. -/
def bar1202 : Candle :=
  { timestamp := 43320000, open_price := 99, high := 99, low := 99,
    close := 99, volume := 30 }

/-- Base bar at 12:03 (the first bar of the next 3-minute bucket). -/
def bar1203 : Candle :=
  { timestamp := 43380000, open_price := 98, high := 98, low := 98,
    close := 98, volume := 5 }

/-- The closed 3m bucket the 12:00-12:02 bars aggregate into. -/
def bucket1200 : Candle :=
  { timestamp := 43200000, open_price := 100, high := 101, low := 99,
    close := 99, volume := 60 }

/-- A malformed base bar at 12:00 whose high is below its open. -/
def badBar : Candle :=
  { timestamp := 43200000, open_price := 10, high := 5, low := 20,
    close := 5, volume := 1 }

/-- An open UP trade entered at 0.60 with profit target 0.70. -/
def mtTrade : ManagedTrade :=
  { side := Side.UP, entry_price := 6/10, tp_price := some (7/10) }

/-- A concrete open (not yet closed) 1m kline event. -/
def msg1m : KlineMsg :=
  { symbol := "BTCUSDT", interval := "1m", is_closed := false, candle := bar1201 }

/-! ## Theorems -/

/-- After `log_trade`, the table always contains a row with the logged id. -/
theorem log_trade_contains (db : TradeDB) (r : TradeRow) :
    (log_trade db r).1.any (fun x => x.id == r.id) = true := by
  unfold log_trade
  cases h : db.any (fun x => x.id == r.id) <;> simp_all

/-- C8: `log_trade` is idempotent on the trade id — a second call with the
same id leaves the table unchanged and reports no insertion (no overwrite, no
error); starting from a table with no row of that id, the two calls leave
exactly one stored row with the id. -/
theorem C8_log_trade_idempotent (db : TradeDB) (r1 r2 : TradeRow)
    (hid : r2.id = r1.id) :
    (log_trade (log_trade db r1).1 r2).1 = (log_trade db r1).1 ∧
    (log_trade (log_trade db r1).1 r2).2 = false ∧
    (db.countP (fun x => x.id == r1.id) = 0 →
      (log_trade (log_trade db r1).1 r2).1.countP (fun x => x.id == r1.id) = 1) := by
  by_cases h : ∃ x ∈ db, x.id = r1.id
  · have h1 : log_trade db r1 = (db, false) := by simp [log_trade, h]
    have hex : ∃ x ∈ db, x.id = r2.id := by
      rcases h with ⟨x, hx, hxid⟩; exact ⟨x, hx, by rw [hxid, hid]⟩
    have h2 : log_trade db r2 = (db, false) := by simp [log_trade, hex]
    refine ⟨by rw [h1, h2], by rw [h1, h2], ?_⟩
    intro hz
    exfalso
    rcases h with ⟨x, hx, hxid⟩
    have hc := List.countP_eq_zero.mp hz x hx
    simp [hxid] at hc
  · have h1 : log_trade db r1 = (db ++ [r1], true) := by simp [log_trade, h]
    have hex : ∃ x ∈ db ++ [r1], x.id = r2.id := ⟨r1, by simp, hid.symm⟩
    have h2 : log_trade (db ++ [r1]) r2 = (db ++ [r1], false) := by
      simp only [log_trade]
      rw [if_pos (List.any_eq_true.mpr ⟨r1, by simp, by simp [hid.symm]⟩)]
    refine ⟨by rw [h1, h2], by rw [h1, h2], ?_⟩
    intro hz
    rw [h1, h2]
    simp [List.countP_append, hz, List.countP_cons]

/-- Witness for C8 at a concrete table. -/
theorem C8_log_trade_idempotent_witness :
    (log_trade (log_trade [] closedRow).1 closedRow).1 = (log_trade [] closedRow).1 ∧
    (log_trade (log_trade [] closedRow).1 closedRow).2 = false ∧
    (([] : TradeDB).countP (fun x => x.id == closedRow.id) = 0 →
      (log_trade (log_trade [] closedRow).1 closedRow).1.countP
        (fun x => x.id == closedRow.id) = 1) :=
  C8_log_trade_idempotent [] closedRow closedRow rfl

/-- C1 counterexample: the store performs no status check before the update,
so `close_trade` on an already-CLOSED trade (stored pnl 5) is not a no-op —
it overwrites the stored pnl (and result_side). -/
theorem C1_closed_trade_overwritten :
    closedDB.map TradeRow.status = ["CLOSED"] ∧
    closedDB.map TradeRow.pnl = [some 5] ∧
    (close_trade closedDB "t1" (-3) "SL_ODDS_DROP").map TradeRow.pnl = [some (-3)] ∧
    close_trade closedDB "t1" (-3) "SL_ODDS_DROP" ≠ closedDB := by
  refine ⟨rfl, rfl, rfl, ?_⟩
  intro hcon
  have h5 : ([some (-3)] : List (Option ℚ)) = [some 5] := by
    calc ([some (-3)] : List (Option ℚ))
        = (close_trade closedDB "t1" (-3) "SL_ODDS_DROP").map TradeRow.pnl := rfl
      _ = closedDB.map TradeRow.pnl := by rw [hcon]
      _ = [some 5] := rfl
  have h6 : (-3 : ℚ) = 5 := by
    simpa using h5
  norm_num at h6

/-- C1 (amended): `update_result` and `close_trade` set the matching trade's
status to CLOSED unconditionally and leave every other trade untouched; a
status can therefore transition OPEN→CLOSED but never CLOSED→OPEN.  There is
no status check before the update, so a close on an already-CLOSED trade is
not a no-op: it overwrites the stored pnl and result_side. -/
theorem C1_close_transitions (db : TradeDB) (tid : String) (p q : ℚ)
    (reason res : String) (i : ℕ) (r : TradeRow) (h : db[i]? = some r) :
    (close_trade db tid p reason)[i]? = some (close_row tid p reason r) ∧
    (update_result db tid res q)[i]? = some (update_row tid res q r) ∧
    (r.id ≠ tid → close_row tid p reason r = r ∧ update_row tid res q r = r) ∧
    (r.id = tid →
      (close_row tid p reason r).status = "CLOSED" ∧
      (close_row tid p reason r).pnl = some p ∧
      (close_row tid p reason r).result_side = some reason ∧
      (update_row tid res q r).status = "CLOSED" ∧
      (update_row tid res q r).pnl = some q) ∧
    (r.status = "CLOSED" →
      (close_row tid p reason r).status = "CLOSED" ∧
      (update_row tid res q r).status = "CLOSED") := by
  refine ⟨?_, ?_, ?_, ?_, ?_⟩
  · simp [close_trade, List.getElem?_map, h]
  · simp [update_result, List.getElem?_map, h]
  · intro hne; constructor <;> simp [close_row, update_row, hne]
  · intro heq; refine ⟨?_, ?_, ?_, ?_, ?_⟩ <;> simp [close_row, update_row, heq]
  · intro hst
    by_cases heq : r.id = tid <;> constructor <;>
      simp [close_row, update_row, heq, hst]

/-- Witness for C1 at the concrete one-row table. -/
theorem C1_close_transitions_witness :
    (close_trade closedDB "t1" (-3) "SL_ODDS_DROP")[0]? =
      some (close_row "t1" (-3) "SL_ODDS_DROP" closedRow) ∧
    (update_result closedDB "t1" "No" 2)[0]? =
      some (update_row "t1" "No" 2 closedRow) ∧
    (closedRow.id ≠ "t1" →
      close_row "t1" (-3) "SL_ODDS_DROP" closedRow = closedRow ∧
      update_row "t1" "No" 2 closedRow = closedRow) ∧
    (closedRow.id = "t1" →
      (close_row "t1" (-3) "SL_ODDS_DROP" closedRow).status = "CLOSED" ∧
      (close_row "t1" (-3) "SL_ODDS_DROP" closedRow).pnl = some (-3) ∧
      (close_row "t1" (-3) "SL_ODDS_DROP" closedRow).result_side =
        some "SL_ODDS_DROP" ∧
      (update_row "t1" "No" 2 closedRow).status = "CLOSED" ∧
      (update_row "t1" "No" 2 closedRow).pnl = some 2) ∧
    (closedRow.status = "CLOSED" →
      (close_row "t1" (-3) "SL_ODDS_DROP" closedRow).status = "CLOSED" ∧
      (update_row "t1" "No" 2 closedRow).status = "CLOSED") :=
  C1_close_transitions closedDB "t1" (-3) 2 "SL_ODDS_DROP" "No" 0 closedRow rfl

/-- Step lemma: a bar flooring to the buffered start merges in memory and
writes nothing. -/
theorem step_same_bucket (tf s : ℕ) (acc c : Candle)
    (hc : bucketStart tf c.timestamp = s) :
    update_timeframe_buffer tf (some (s, acc)) c =
      (some (s, mergeCandle s acc c), [], mergeCandle s acc c) := by
  simp [update_timeframe_buffer, hc]

/-- Step lemma: a bar flooring to a different start flushes the buffered
candle and reseeds the bucket from the bar. -/
theorem step_rollover (tf s : ℕ) (acc c : Candle)
    (hc : bucketStart tf c.timestamp ≠ s) :
    update_timeframe_buffer tf (some (s, acc)) c =
      (some (bucketStart tf c.timestamp,
         create_new_bucket (bucketStart tf c.timestamp) c), [acc],
       create_new_bucket (bucketStart tf c.timestamp) c) := by
  simp [update_timeframe_buffer, hc]

/-- Step lemma: the first bar seeds the bucket and writes nothing. -/
theorem step_first (tf : ℕ) (c : Candle) :
    update_timeframe_buffer tf none c =
      (some (bucketStart tf c.timestamp,
         create_new_bucket (bucketStart tf c.timestamp) c), [],
       create_new_bucket (bucketStart tf c.timestamp) c) := by
  simp [update_timeframe_buffer]

/-- While every incoming bar floors to the buffered start, the run writes
nothing and the buffer accumulates: open fixed, high a running max, low a
running min, close the latest close, volume a sum. -/
theorem runAgg_same_bucket (tf s : ℕ) (acc : Candle) (bs : List Candle)
    (hts : acc.timestamp = s)
    (h : ∀ b ∈ bs, bucketStart tf b.timestamp = s) :
    runAgg tf (some (s, acc)) bs =
      (some (s,
        { timestamp := s, open_price := acc.open_price,
          high := (bs.map Candle.high).foldl max acc.high,
          low := (bs.map Candle.low).foldl min acc.low,
          close := bs.foldl (fun _ b => b.close) acc.close,
          volume := acc.volume + (bs.map Candle.volume).sum }), []) := by
  induction bs generalizing acc with
  | nil =>
    cases acc
    simp_all [runAgg]
  | cons b rest ih =>
    have hb : bucketStart tf b.timestamp = s := h b (List.mem_cons_self b rest)
    have hrest : ∀ b' ∈ rest, bucketStart tf b'.timestamp = s :=
      fun b' hx => h b' (List.mem_cons_of_mem b hx)
    have ihm := ih (mergeCandle s acc b) rfl hrest
    simp only [runAgg, step_same_bucket tf s acc b hb, ihm]
    simp [mergeCandle, add_assoc]

/-- C6: while base bars keep flooring to the same bucket start, each update
leaves the bucket's open unchanged, sets high to the running maximum of
contributing highs, low to the running minimum of lows, close to the most
recent bar's close and volume to the accumulated sum; in the concrete
scenario, 1m bars at 12:00, 12:01, 12:02 with closes 100, 101, 99 aggregate
into a 3m bucket with open 100, high 101, low 99, close 99 and volume equal
to the sum of the three. -/
theorem C6_bucket_ohlcv (tf : ℕ) (b0 : Candle) (bs : List Candle)
    (h : ∀ b ∈ bs, bucketStart tf b.timestamp = bucketStart tf b0.timestamp) :
    runAgg tf none (b0 :: bs) =
      (some (bucketStart tf b0.timestamp,
        { timestamp := bucketStart tf b0.timestamp,
          open_price := b0.open_price,
          high := (bs.map Candle.high).foldl max b0.high,
          low := (bs.map Candle.low).foldl min b0.low,
          close := bs.foldl (fun _ b => b.close) b0.close,
          volume := b0.volume + (bs.map Candle.volume).sum }), []) ∧
    runAgg 3 none [bar1200, bar1201, bar1202] = (some (43200000, bucket1200), []) := by
  constructor
  · have hrun := runAgg_same_bucket tf (bucketStart tf b0.timestamp)
      (create_new_bucket (bucketStart tf b0.timestamp) b0) bs rfl h
    simp only [runAgg, step_first tf b0, hrun]
    simp [create_new_bucket]
  · norm_num [runAgg, update_timeframe_buffer, bucketStart, bar1200, bar1201,
      bar1202, bucket1200, mergeCandle, create_new_bucket]

/-- Witness for C6 at the concrete 12:00-12:02 bars. -/
theorem C6_bucket_ohlcv_witness :
    runAgg 3 none [bar1200, bar1201, bar1202] = (some (43200000, bucket1200), []) :=
  (C6_bucket_ohlcv 3 bar1200 []
    (fun b hb => absurd hb (List.not_mem_nil b))).2

/-- Over a run whose bucket starts never decrease, the final buffer is an open
bucket stamped with its start, flushed candles carry strictly increasing
start stamps (so no closed bucket is ever flushed twice), and every flushed
stamp lies strictly below the final open bucket's start (so the open bucket
was never flushed). -/
theorem runAgg_writes_closed (tf : ℕ) (bars : List Candle) (s : ℕ) (acc : Candle)
    (hts : acc.timestamp = s)
    (hchain : List.Chain (fun a b => a ≤ b) s
      (bars.map (fun c => bucketStart tf c.timestamp))) :
    ∃ sF accF, (runAgg tf (some (s, acc)) bars).1 = some (sF, accF) ∧
      accF.timestamp = sF ∧ s ≤ sF ∧
      List.Pairwise (fun a b => a.timestamp < b.timestamp)
        (runAgg tf (some (s, acc)) bars).2 ∧
      ∀ w ∈ (runAgg tf (some (s, acc)) bars).2, s ≤ w.timestamp ∧ w.timestamp < sF := by
  induction bars generalizing s acc with
  | nil =>
    exact ⟨s, acc, rfl, hts, le_refl s, by simp [runAgg], by simp [runAgg]⟩
  | cons b rest ih =>
    rw [List.map_cons, List.chain_cons] at hchain
    obtain ⟨hsb, hchain'⟩ := hchain
    by_cases hb : bucketStart tf b.timestamp = s
    · rw [hb] at hchain'
      obtain ⟨sF, accF, h1, h2, h3, h4, h5⟩ := ih s (mergeCandle s acc b) rfl hchain'
      refine ⟨sF, accF, ?_, h2, h3, ?_, ?_⟩
      · simp only [runAgg, step_same_bucket tf s acc b hb]; exact h1
      · simp only [runAgg, step_same_bucket tf s acc b hb, List.nil_append]; exact h4
      · simp only [runAgg, step_same_bucket tf s acc b hb, List.nil_append]; exact h5
    · have hlt : s < bucketStart tf b.timestamp :=
        lt_of_le_of_ne hsb (fun hx => hb hx.symm)
      obtain ⟨sF, accF, h1, h2, h3, h4, h5⟩ :=
        ih (bucketStart tf b.timestamp)
          (create_new_bucket (bucketStart tf b.timestamp) b) rfl hchain'
      refine ⟨sF, accF, ?_, h2, le_trans (le_of_lt hlt) h3, ?_, ?_⟩
      · simp only [runAgg, step_rollover tf s acc b hb]; exact h1
      · simp only [runAgg, step_rollover tf s acc b hb, List.cons_append,
          List.nil_append]
        refine List.Pairwise.cons ?_ h4
        intro w hw
        have hw1 := (h5 w hw).1
        rw [hts]; omega
      · simp only [runAgg, step_rollover tf s acc b hb, List.cons_append,
          List.nil_append]
        intro w hw
        rcases List.mem_cons.mp hw with hw | hw
        · subst hw
          exact ⟨le_of_eq hts.symm, hts ▸ lt_of_lt_of_le hlt h3⟩
        · exact ⟨le_trans (le_of_lt hlt) (h5 w hw).1, (h5 w hw).2⟩

/-- C5: for a derived cadence, a bucket is flushed to bar storage exactly at
the moment the first base bar arrives whose floored timestamp differs from
the buffered bucket's start (and the flushed candle is the buffered one);
the very first bar writes nothing; over any run with non-decreasing bucket
starts each closed bucket is written exactly once (flushed stamps strictly
increase) and the still-open final bucket is never among the writes; in the
3m scenario the 12:00 bucket is not written while the 12:00-12:02 bars
arrive, and is written exactly once when the 12:03 bar arrives. -/
theorem C5_write_once_at_rollover (tf s : ℕ) (acc c : Candle) (bars : List Candle)
    (hts : acc.timestamp = s)
    (hchain : List.Chain (fun a b => a ≤ b) s
      (bars.map (fun x => bucketStart tf x.timestamp))) :
    ((update_timeframe_buffer tf (some (s, acc)) c).2.1 =
      if bucketStart tf c.timestamp = s then [] else [acc]) ∧
    (update_timeframe_buffer tf none c).2.1 = [] ∧
    (∃ sF accF, (runAgg tf (some (s, acc)) bars).1 = some (sF, accF) ∧
      accF.timestamp = sF ∧
      List.Pairwise (fun a b => a.timestamp < b.timestamp)
        (runAgg tf (some (s, acc)) bars).2 ∧
      ∀ w ∈ (runAgg tf (some (s, acc)) bars).2, w.timestamp < sF) ∧
    (runAgg 3 none [bar1200, bar1201, bar1202]).2 = [] ∧
    (runAgg 3 none [bar1200, bar1201, bar1202, bar1203]).2 = [bucket1200] := by
  refine ⟨?_, ?_, ?_, ?_, ?_⟩
  · by_cases hb : bucketStart tf c.timestamp = s
    · rw [step_same_bucket tf s acc c hb, if_pos hb]
    · rw [step_rollover tf s acc c hb, if_neg hb]
  · rw [step_first]
  · obtain ⟨sF, accF, h1, h2, _, h4, h5⟩ :=
      runAgg_writes_closed tf bars s acc hts hchain
    exact ⟨sF, accF, h1, h2, h4, fun w hw => (h5 w hw).2⟩
  · norm_num [runAgg, update_timeframe_buffer, bucketStart, bar1200, bar1201,
      bar1202, mergeCandle, create_new_bucket]
  · norm_num [runAgg, update_timeframe_buffer, bucketStart, bar1200, bar1201,
      bar1202, bar1203, bucket1200, mergeCandle, create_new_bucket]

/-- Witness for C5: the 3m bucket of 12:00 is flushed exactly once, when the
12:03 bar arrives. -/
theorem C5_write_once_at_rollover_witness :
    (runAgg 3 none [bar1200, bar1201, bar1202, bar1203]).2 = [bucket1200] :=
  (C5_write_once_at_rollover 3 43200000 bucket1200 bar1203 [bar1203] rfl
    (by norm_num [bar1203, bucketStart, List.chain_cons])).2.2.2.2

/-- Seeding a bucket from a well-formed bar yields a well-formed bucket. -/
theorem candle_ok_create (s : ℕ) (c : Candle) (hc : candle_ok c) :
    candle_ok (create_new_bucket s c) := by
  simpa [candle_ok, create_new_bucket] using hc

/-- Merging a well-formed bar into a well-formed bucket keeps it well-formed. -/
theorem candle_ok_merge (s : ℕ) (a c : Candle) (ha : candle_ok a)
    (hc : candle_ok c) : candle_ok (mergeCandle s a c) := by
  obtain ⟨ha1, ha2⟩ := ha
  obtain ⟨hc1, hc2⟩ := hc
  constructor
  · show max (mergeCandle s a c).open_price (mergeCandle s a c).close ≤ _
    simp only [mergeCandle]
    apply max_le
    · exact le_trans (le_trans (le_max_left _ _) ha1) (le_max_left _ _)
    · exact le_trans (le_trans (le_max_right _ _) hc1) (le_max_right _ _)
  · show (mergeCandle s a c).low ≤ _
    simp only [mergeCandle]
    apply le_min
    · exact le_trans (min_le_left _ _) (le_trans ha2 (min_le_left _ _))
    · exact le_trans (min_le_right _ _) (le_trans hc2 (min_le_right _ _))

/-- C9 counterexample: the aggregator performs no sanity check on incoming
bars, so a malformed base bar (high below open) yields a persisted closed
bucket violating `high ≥ max(open, close)`. -/
theorem C9_malformed_bucket_written :
    (runAgg 3 none [badBar, bar1203]).2 = [create_new_bucket 43200000 badBar] ∧
    ¬ candle_ok (create_new_bucket 43200000 badBar) := by
  constructor
  · norm_num [runAgg, update_timeframe_buffer, bucketStart, badBar, bar1203,
      create_new_bucket, mergeCandle]
  · intro h
    obtain ⟨h1, _⟩ := h
    norm_num [create_new_bucket, badBar] at h1

/-- C9 (amended): for all sequences of well-formed base bars (each satisfying
`high ≥ max(open, close)` and `low ≤ min(open, close)`) and any well-formed
starting buffer, every closed bucket persisted to bar storage is well-formed,
and so is the in-memory bucket. -/
theorem C9_written_buckets_wellformed (tf : ℕ) (buf : Option (ℕ × Candle))
    (bars : List Candle)
    (hbuf : ∀ s acc, buf = some (s, acc) → candle_ok acc)
    (hbars : ∀ b ∈ bars, candle_ok b) :
    (∀ w ∈ (runAgg tf buf bars).2, candle_ok w) ∧
    (∀ s acc, (runAgg tf buf bars).1 = some (s, acc) → candle_ok acc) := by
  induction bars generalizing buf with
  | nil =>
    constructor
    · intro w hw; simp [runAgg] at hw
    · intro s acc h
      exact hbuf s acc h
  | cons b rest ih =>
    have hb : candle_ok b := hbars b (List.mem_cons_self b rest)
    have hrest : ∀ b' ∈ rest, candle_ok b' :=
      fun b' hx => hbars b' (List.mem_cons_of_mem b hx)
    rcases buf with _ | ⟨s, acc⟩
    · have hnew : ∀ s' acc',
          (some (bucketStart tf b.timestamp,
            create_new_bucket (bucketStart tf b.timestamp) b) :
              Option (ℕ × Candle)) = some (s', acc') → candle_ok acc' := by
        intro s' acc' h
        simp only [Option.some.injEq, Prod.mk.injEq] at h
        rw [← h.2]
        exact candle_ok_create _ b hb
      simp only [runAgg, step_first, List.nil_append]
      exact ih _ hnew hrest
    · have hacc : candle_ok acc := hbuf s acc rfl
      by_cases hfl : bucketStart tf b.timestamp = s
      · have hnew : ∀ s' acc',
            (some (s, mergeCandle s acc b) : Option (ℕ × Candle)) =
              some (s', acc') → candle_ok acc' := by
          intro s' acc' h
          simp only [Option.some.injEq, Prod.mk.injEq] at h
          rw [← h.2]
          exact candle_ok_merge s acc b hacc hb
        simp only [runAgg, step_same_bucket tf s acc b hfl, List.nil_append]
        exact ih _ hnew hrest
      · have hnew : ∀ s' acc',
            (some (bucketStart tf b.timestamp,
              create_new_bucket (bucketStart tf b.timestamp) b) :
                Option (ℕ × Candle)) = some (s', acc') → candle_ok acc' := by
          intro s' acc' h
          simp only [Option.some.injEq, Prod.mk.injEq] at h
          rw [← h.2]
          exact candle_ok_create _ b hb
        have ihres := ih _ hnew hrest
        simp only [runAgg, step_rollover tf s acc b hfl, List.cons_append,
          List.nil_append]
        constructor
        · intro w hw
          rcases List.mem_cons.mp hw with hw | hw
          · rw [hw]; exact hacc
          · exact ihres.1 w hw
        · exact ihres.2

/-- Witness for C9 at a concrete well-formed run: the in-memory 3m bucket
built from the 12:00 bar is well-formed. -/
theorem C9_written_buckets_wellformed_witness :
    candle_ok (create_new_bucket 43200000 bar1200) :=
  (C9_written_buckets_wellformed 3 none [bar1200]
      (by simp)
      (by norm_num [List.forall_mem_cons, candle_ok, bar1200])).2
    43200000 (create_new_bucket 43200000 bar1200)
    (by norm_num [runAgg, update_timeframe_buffer, bucketStart, bar1200])

/-- C10: `process_1m_candle` does not deduplicate deliveries by base
timestamp — any bar flooring to the buffered start adds its volume
unconditionally, so delivering the same bar twice contributes its volume
twice; and `_on_message` invokes the aggregator on every 1m kline event,
open or closed, while persisting the 1m bar itself only on events flagged
closed. -/
theorem C10_no_timestamp_dedup (tf s : ℕ) (lc c : Candle) (msg : KlineMsg)
    (hfloor : bucketStart tf c.timestamp = s)
    (hmsg : msg.symbol ≠ "" ∧ msg.interval = "1m") :
    (update_timeframe_buffer tf (some (s, lc)) c).1 =
      some (s, mergeCandle s lc c) ∧
    (mergeCandle s lc c).volume = lc.volume + c.volume ∧
    (runAgg tf (some (s, lc)) [c, c]).1 =
      some (s, mergeCandle s (mergeCandle s lc c) c) ∧
    (mergeCandle s (mergeCandle s lc c) c).volume =
      lc.volume + c.volume + c.volume ∧
    (on_message msg).2 = [msg.candle] ∧
    (on_message msg).1 = (if msg.is_closed then [msg.candle] else []) := by
  refine ⟨?_, rfl, ?_, rfl, ?_, ?_⟩
  · rw [step_same_bucket tf s lc c hfloor]
  · simp only [runAgg, step_same_bucket tf s lc c hfloor,
      step_same_bucket tf s (mergeCandle s lc c) c hfloor]
  · simp [on_message, hmsg]
  · simp [on_message, hmsg]

/-- Witness for C10: delivering the 12:01 bar twice adds its volume twice. -/
theorem C10_no_timestamp_dedup_witness :
    (runAgg 3 (some (43200000, create_new_bucket 43200000 bar1200))
        [bar1201, bar1201]).1 =
      some (43200000,
        mergeCandle 43200000
          (mergeCandle 43200000 (create_new_bucket 43200000 bar1200) bar1201)
          bar1201) :=
  (C10_no_timestamp_dedup 3 43200000 (create_new_bucket 43200000 bar1200)
      bar1201 msg1m
      (by norm_num [bucketStart, bar1201])
      (by simp [msg1m])).2.2.1

/-- C3: the entry fires exactly when the model probability crosses the
0.65/0.35 confidence threshold on either side and the signed edge
(probability for that side minus the live quote for that side) exceeds 0.05;
the produced signal carries that side's quote and edge, and the recorded
profit target is the entry quote plus half the edge.  Scenario: probability
0.72 against quote 0.60 for the up side enters UP with target 0.66. -/
theorem C3_entry_threshold_and_edge (p pu pd : ℚ) :
    ((entry_signal p pu pd).isSome ↔
      ((p > 65/100 ∧ p - pu > 5/100) ∨ (p < 35/100 ∧ (1 - p) - pd > 5/100))) ∧
    (∀ sig, entry_signal p pu pd = some sig →
      ((sig.signal_side = Side.UP ∧ p > 65/100 ∧ sig.market_price = pu ∧
          sig.edge_val = p - pu) ∨
       (sig.signal_side = Side.DOWN ∧ p < 35/100 ∧ sig.market_price = pd ∧
          sig.edge_val = (1 - p) - pd)) ∧
      sig.edge_val > 5/100 ∧
      profit_target_of sig = sig.market_price + sig.edge_val / 2) ∧
    (∃ sig, entry_signal (72/100) (60/100) (40/100) = some sig ∧
      sig.signal_side = Side.UP ∧ sig.market_price = 60/100 ∧
      profit_target_of sig = 66/100) := by
  refine ⟨?_, ?_, ?_⟩
  · by_cases h1 : p > 65/100
    · by_cases h2 : p - pu > 5/100
      · unfold entry_signal
        rw [if_pos h1]
        dsimp only
        rw [if_pos h2]
        exact iff_of_true (by simp) (Or.inl ⟨h1, h2⟩)
      · unfold entry_signal
        rw [if_pos h1]
        dsimp only
        rw [if_neg h2]
        refine iff_of_false (by simp) ?_
        rintro (⟨hh1, hh2⟩ | ⟨hh3, hh4⟩)
        · exact h2 hh2
        · linarith
    · by_cases h3 : p < 35/100
      · by_cases h4 : 1 - p - pd > 5/100
        · unfold entry_signal
          rw [if_neg h1, if_pos h3]
          dsimp only
          rw [if_pos h4]
          exact iff_of_true (by simp) (Or.inr ⟨h3, h4⟩)
        · unfold entry_signal
          rw [if_neg h1, if_pos h3]
          dsimp only
          rw [if_neg h4]
          refine iff_of_false (by simp) ?_
          rintro (⟨hh1, hh2⟩ | ⟨hh3, hh4⟩)
          · exact h1 hh1
          · exact h4 hh4
      · unfold entry_signal
        rw [if_neg h1, if_neg h3]
        refine iff_of_false (by simp) ?_
        rintro (⟨hh1, hh2⟩ | ⟨hh3, hh4⟩)
        · exact h1 hh1
        · exact h3 hh3
  · intro sig hsig
    unfold entry_signal at hsig
    by_cases h1 : p > 65/100
    · rw [if_pos h1] at hsig
      dsimp only at hsig
      by_cases h2 : p - pu > 5/100
      · rw [if_pos h2] at hsig
        obtain rfl := Option.some.inj hsig
        exact ⟨Or.inl ⟨rfl, h1, rfl, rfl⟩, h2, rfl⟩
      · rw [if_neg h2] at hsig
        exact Option.noConfusion hsig
    · rw [if_neg h1] at hsig
      by_cases h3 : p < 35/100
      · rw [if_pos h3] at hsig
        dsimp only at hsig
        by_cases h4 : 1 - p - pd > 5/100
        · rw [if_pos h4] at hsig
          obtain rfl := Option.some.inj hsig
          exact ⟨Or.inr ⟨rfl, h3, rfl, rfl⟩, h4, rfl⟩
        · rw [if_neg h4] at hsig
          exact Option.noConfusion hsig
      · rw [if_neg h3] at hsig
        exact Option.noConfusion hsig
  · refine ⟨⟨Side.UP, 72/100, 60/100, 72/100 - 60/100⟩, ?_, rfl, rfl, ?_⟩
    · unfold entry_signal
      rw [if_pos (by norm_num : (72:ℚ)/100 > 65/100)]
      dsimp only
      rw [if_pos (by norm_num : (72:ℚ)/100 - 60/100 > 5/100)]
    · unfold profit_target_of
      norm_num

/-- Witness for C3 at the scenario inputs. -/
theorem C3_entry_threshold_and_edge_witness :
    (entry_signal (72/100) (60/100) (40/100)).isSome :=
  ((C3_entry_threshold_and_edge (72/100) (60/100) (40/100)).1).mpr
    (Or.inl (by norm_num))

/-- Unfolding of the exit decision into the source's locals `sl_triggered`
and `current_price`. -/
theorem manage_open_trade_eq (p pu pd : ℚ) (t : ManagedTrade) :
    manage_open_trade p pu pd t =
      if sl_condition p t then
        some ("SL_ODDS_DROP", current_price_for pu pd t - t.entry_price)
      else
        match t.tp_price with
        | some tp =>
          if tp ≠ 0 ∧ current_price_for pu pd t ≥ tp then
            some ("TP_HIT", current_price_for pu pd t - t.entry_price)
          else none
        | none => none := rfl

/-- C4 counterexample: when the live quote (0.80) exceeds the profit target
(0.70), the take-profit closes at the current quote (pnl 0.80 − 0.60), not at
the target (which would give 0.70 − 0.60). -/
theorem C4_tp_closes_at_quote_not_target :
    mtTrade.tp_price = some (7/10) ∧
    manage_open_trade (8/10) (8/10) (2/10) mtTrade =
      some ("TP_HIT", 8/10 - 6/10) ∧
    (8/10 - 6/10 : ℚ) ≠ 7/10 - 6/10 := by
  refine ⟨rfl, ?_, by norm_num⟩
  rw [manage_open_trade_eq]
  rw [if_neg ?_]
  · rw [show mtTrade.tp_price = some (7/10) from rfl]
    show (if (7:ℚ)/10 ≠ 0 ∧ current_price_for (8/10) (2/10) mtTrade ≥ 7/10 then
        some ("TP_HIT", current_price_for (8/10) (2/10) mtTrade -
          mtTrade.entry_price)
      else none) = some ("TP_HIT", 8/10 - 6/10)
    rw [if_pos ⟨by norm_num, by norm_num [current_price_for, mtTrade]⟩]
    norm_num [current_price_for, mtTrade]
  · unfold sl_condition mtTrade
    rintro (⟨_, h⟩ | ⟨h, _⟩)
    · norm_num at h
    · exact Side.noConfusion h

/-- C4 (amended): on each evaluation of an open trade at most one exit fires
(the decision is a single optional close); the stop-loss condition is checked
first and wins whenever it holds, closing at the current live quote; only
when it fails and the live quote for the held side reaches or exceeds the
(nonzero) profit target does the take-profit fire — also closing at the
current live quote, not at the target; otherwise no exit fires. -/
theorem C4_sl_checked_first (p pu pd : ℚ) (t : ManagedTrade) :
    (sl_condition p t →
      manage_open_trade p pu pd t =
        some ("SL_ODDS_DROP", current_price_for pu pd t - t.entry_price)) ∧
    (¬ sl_condition p t → ∀ tp, t.tp_price = some tp → tp ≠ 0 →
      current_price_for pu pd t ≥ tp →
      manage_open_trade p pu pd t =
        some ("TP_HIT", current_price_for pu pd t - t.entry_price)) ∧
    (¬ sl_condition p t →
      (∀ tp, t.tp_price = some tp → tp = 0 ∨ current_price_for pu pd t < tp) →
      manage_open_trade p pu pd t = none) := by
  refine ⟨?_, ?_, ?_⟩
  · intro hsl
    rw [manage_open_trade_eq, if_pos hsl]
  · intro hsl tp htp htp0 hge
    rw [manage_open_trade_eq, if_neg hsl, htp]
    show (if tp ≠ 0 ∧ current_price_for pu pd t ≥ tp then
        some ("TP_HIT", current_price_for pu pd t - t.entry_price)
      else none) = some ("TP_HIT", current_price_for pu pd t - t.entry_price)
    rw [if_pos ⟨htp0, hge⟩]
  · intro hsl hno
    rw [manage_open_trade_eq, if_neg hsl]
    cases htp : t.tp_price with
    | none => rfl
    | some tp =>
      show (if tp ≠ 0 ∧ current_price_for pu pd t ≥ tp then
          some ("TP_HIT", current_price_for pu pd t - t.entry_price)
        else none) = none
      have hcond : ¬ (tp ≠ 0 ∧ current_price_for pu pd t ≥ tp) := by
        rintro ⟨h0, hge⟩
        rcases hno tp htp with h | h
        · exact h0 h
        · exact absurd hge (not_le.mpr h)
      rw [if_neg hcond]

/-- Witness for C4: a lost-confidence UP trade stops out at the current
quote. -/
theorem C4_sl_checked_first_witness :
    manage_open_trade (5/10) (8/10) (2/10) mtTrade =
      some ("SL_ODDS_DROP", current_price_for (8/10) (2/10) mtTrade -
        mtTrade.entry_price) :=
  (C4_sl_checked_first (5/10) (8/10) (2/10) mtTrade).1
    (Or.inl ⟨rfl, by norm_num⟩)

/-- Unfolding of the settlement step when a resolution arrived and an entry
price was recorded. -/
theorem resolve_trade_some_ep (side res : String) (prob e : ℚ) :
    resolve_trade side prob (some e) (some res) =
      some (res,
        (if (res = "Yes" ∧ side = "UP") ∨ (res = "No" ∧ side = "DOWN")
          then (1:ℚ) else 0) -
        (if e > 0 then e else if side = "UP" then prob else 1 - prob)) := rfl

/-- Unfolding of the settlement step when a resolution arrived and no entry
price was recorded. -/
theorem resolve_trade_none_ep (side res : String) (prob : ℚ) :
    resolve_trade side prob none (some res) =
      some (res,
        (if (res = "Yes" ∧ side = "UP") ∨ (res = "No" ∧ side = "DOWN")
          then (1:ℚ) else 0) -
        (if side = "UP" then prob else 1 - prob)) := rfl

/-- C7 counterexample: a captured entry price of 0 is not used as the cost —
the code requires `entry_price > 0` and otherwise falls back to the
probability-implied cost, so an up trade with recorded entry price 0 and
probability 0.7 that resolves down closes with pnl 0 − 0.7, not
0 − 0 as the claim's cost rule implies. -/
theorem C7_zero_entry_price_ignored :
    resolve_trade "UP" (7/10) (some 0) (some "No") = some ("No", 0 - 7/10) ∧
    (0 - 7/10 : ℚ) ≠ 0 - 0 := by
  constructor
  · rw [resolve_trade_some_ep]
    rw [if_neg (by norm_num : ¬ ((0:ℚ) > 0)), if_pos rfl]
    rw [if_neg ?_]
    · rintro (⟨h, _⟩ | ⟨_, h⟩) <;> exact absurd h (by decide)
  · norm_num

/-- C7 (amended): a trade with no available resolution is left OPEN; for a
resolved trade, pnl = payout − cost where payout is 1 exactly when the
outcome matches the trade's side, and cost is the recorded entry price when
one was captured and it is positive, else the probability-implied cost
(probability for an up trade, one minus probability for a down trade); in
particular an up trade resolved down with a positive captured entry price
closes with pnl = 0 − entry_price. -/
theorem C7_pnl_payout_minus_cost (side : String) (prob : ℚ) (ep : Option ℚ)
    (res : String) (e : ℚ) :
    (resolve_trade side prob ep none = none) ∧
    (0 < e → resolve_trade side prob (some e) (some res) =
      some (res,
        (if (res = "Yes" ∧ side = "UP") ∨ (res = "No" ∧ side = "DOWN")
          then (1:ℚ) else 0) - e)) ∧
    (resolve_trade side prob none (some res) =
      some (res,
        (if (res = "Yes" ∧ side = "UP") ∨ (res = "No" ∧ side = "DOWN")
          then (1:ℚ) else 0) -
        (if side = "UP" then prob else 1 - prob))) ∧
    (e ≤ 0 → resolve_trade side prob (some e) (some res) =
      some (res,
        (if (res = "Yes" ∧ side = "UP") ∨ (res = "No" ∧ side = "DOWN")
          then (1:ℚ) else 0) -
        (if side = "UP" then prob else 1 - prob))) ∧
    (0 < e → resolve_trade "UP" prob (some e) (some "No") =
      some ("No", 0 - e)) := by
  refine ⟨rfl, ?_, resolve_trade_none_ep side res prob, ?_, ?_⟩
  · intro he
    rw [resolve_trade_some_ep, if_pos he]
  · intro he
    rw [resolve_trade_some_ep, if_neg (not_lt.mpr he)]
  · intro he
    rw [resolve_trade_some_ep, if_pos he]
    rw [if_neg ?_]
    rintro (⟨h, _⟩ | ⟨_, h⟩) <;> exact absurd h (by decide)

/-- Witness for C7: an up trade entered at 0.60 that resolves down closes
with pnl 0 − 0.60. -/
theorem C7_pnl_payout_minus_cost_witness :
    resolve_trade "UP" (7/10) (some (6/10)) (some "No") =
      some ("No", 0 - 6/10) :=
  (C7_pnl_payout_minus_cost "UP" (7/10) (some (6/10)) "No" (6/10)).2.2.2.2
    (by norm_num)

/-- A successful backward as-of lookup returns a key from the list that is at
or before the probe time. -/
theorem asofBackward_spec (ks : List ℕ) (t : ℕ) : ∀ k,
    asofBackward ks t = some k → k ∈ ks ∧ k ≤ t := by
  induction ks with
  | nil => intro k h; simp [asofBackward] at h
  | cons a as ih =>
    intro k h
    cases hm : asofBackward as t with
    | none =>
      have h2 : (if a ≤ t then some a else none) = some k := by
        simpa only [asofBackward, hm] using h
      by_cases ha : a ≤ t
      · rw [if_pos ha] at h2
        obtain rfl := Option.some.inj h2
        exact ⟨List.mem_cons_self a as, ha⟩
      · rw [if_neg ha] at h2
        exact Option.noConfusion h2
    | some m =>
      have h2 : (if a ≤ t then some (max a m) else some m) = some k := by
        simpa only [asofBackward, hm] using h
      obtain ⟨hmem, hle⟩ := ih m hm
      by_cases ha : a ≤ t
      · rw [if_pos ha] at h2
        obtain rfl := Option.some.inj h2
        refine ⟨?_, max_le ha hle⟩
        rcases le_total a m with hh | hh
        · rw [max_eq_right hh]
          exact List.mem_cons_of_mem a hmem
        · rw [max_eq_left hh]
          exact List.mem_cons_self a as
      · rw [if_neg ha] at h2
        obtain rfl := Option.some.inj h2
        exact ⟨List.mem_cons_of_mem a hmem, hle⟩

/-- The backward as-of lookup succeeds whenever some key is at or before the
probe time. -/
theorem asofBackward_isSome (ks : List ℕ) (t k : ℕ) (hk : k ∈ ks)
    (hle : k ≤ t) : (asofBackward ks t).isSome := by
  induction ks with
  | nil => cases hk
  | cons a as ih =>
    rcases List.mem_cons.mp hk with rfl | hmem
    · cases hm : asofBackward as t with
      | none => simp [asofBackward, hm, hle]
      | some m => simp [asofBackward, hm, hle]
    · have hsome := ih hmem
      cases hm : asofBackward as t with
      | none => rw [hm] at hsome; simp at hsome
      | some m =>
        by_cases ha : a ≤ t <;> simp [asofBackward, hm, ha]

/-- Any row of the merged dataset pairs a base timestamp with a cadence
bucket from the list whose covering interval ended at or before it. -/
theorem build_mtf_mem (c_ms : ℕ) (base tfStarts : List ℕ) (t s : ℕ)
    (h : (t, s) ∈ build_mtf c_ms base tfStarts) :
    s ∈ tfStarts ∧ s + c_ms ≤ t ∧ t ∈ base := by
  unfold build_mtf at h
  rw [List.mem_filterMap] at h
  obtain ⟨a, ha, hopt⟩ := h
  cases hj : joinTF c_ms tfStarts a with
  | none => rw [hj] at hopt; exact Option.noConfusion hopt
  | some k =>
    rw [hj, Option.map_some'] at hopt
    have hp := Option.some.inj hopt
    injection hp with hp1 hp2
    unfold joinTF at hj
    obtain ⟨hmem, hle⟩ := asofBackward_spec _ _ _ hj
    rw [List.mem_map] at hmem
    obtain ⟨q, hq, hqk⟩ := hmem
    subst hp1
    rw [← hp2, ← hqk, Nat.add_sub_cancel]
    exact ⟨hq, by rw [hqk]; exact hle, ha⟩

/-- C2: every cadence value attached to a base row originates from a cadence
bucket whose covering interval ended at or before the base timestamp (never
a bucket still open or closing later), and a base row appears in the output
precisely when some bucket with interval end at or before it exists — rows
with no qualifying match are dropped. -/
theorem C2_leakage_free_join (c_ms : ℕ) (base tfStarts : List ℕ) (t s : ℕ) :
    ((t, s) ∈ build_mtf c_ms base tfStarts →
      s ∈ tfStarts ∧ s + c_ms ≤ t ∧ t ∈ base) ∧
    (t ∈ base →
      ((∃ q ∈ tfStarts, q + c_ms ≤ t) ↔
        ∃ q, (t, q) ∈ build_mtf c_ms base tfStarts)) := by
  constructor
  · exact build_mtf_mem c_ms base tfStarts t s
  · intro hbase
    constructor
    · rintro ⟨q, hq, hle⟩
      have hsome : (asofBackward (tfStarts.map (· + c_ms)) t).isSome :=
        asofBackward_isSome _ _ (q + c_ms) (List.mem_map_of_mem _ hq) hle
      obtain ⟨k, hk⟩ := Option.isSome_iff_exists.mp hsome
      refine ⟨k - c_ms, ?_⟩
      unfold build_mtf
      rw [List.mem_filterMap]
      refine ⟨t, hbase, ?_⟩
      unfold joinTF
      rw [hk, Option.map_some']
    · rintro ⟨q, hq⟩
      obtain ⟨hmem, hle, _⟩ := build_mtf_mem c_ms base tfStarts t q hq
      exact ⟨q, hmem, hle⟩

/-- Witness for C2: with a 3m bucket starting 11:57 (ending exactly 12:00),
the base row at 12:01 matches it, and that bucket's interval indeed ended at
or before 12:01. -/
theorem C2_leakage_free_join_witness :
    43020000 ∈ [43020000] ∧ 43020000 + 180000 ≤ 43260000 ∧
      43260000 ∈ [43200000, 43260000] :=
  (C2_leakage_free_join 180000 [43200000, 43260000] [43020000]
      43260000 43020000).1 (by decide)
